import Mathlib

/-!
Verification development for the fast-agent-demo repository.

Shallow embedding of the parts of the code that the checked properties
concern:

* `agents/tools.py`   — the `run_code` tool (content-block assembly,
  error handling around sandbox acquisition/execution);
* `agents/agent.py`   — the agent loop `run_agent` (system-prompt
  insertion, usage accounting, assistant/tool message emission, tool
  dispatch);
* `agents/driver_program.py` — the sandbox driver loop (persistent
  environment, per-snippet stdout/stderr capture, response records);
* `agents/coding_sandbox.py` — `ModalSandbox._open_sandbox_file`
  (retrying open of remote files).

Python exceptions are modelled by `PyError`, recording the exception
class name (`type(e).__name__`), its text (`str(e)`) and whether the
class derives from `Exception` (as opposed to being a bare
`BaseException` such as `SystemExit` or `KeyboardInterrupt`): the
`except Exception` clauses in the source catch exactly the errors with
`derivesException = true`.

The opaque model gateway (litellm) is modelled by a script: the list of
responses successive model calls return.  The text of the canonical
system prompt is irrelevant to every property below, so it is passed as
a parameter `sp` rather than copied from `agents/prompts.py`.
-/

namespace FastAgent

/-- A Python exception value: class name, `str(e)`, and whether the
class derives from `Exception` (the only errors `except Exception`
catches). -/
structure PyError where
  kind : String
  msg : String
  derivesException : Bool
deriving DecidableEq

/-- One content block of a tool result, as built by `run_code` in
`agents/tools.py` (litellm content-block format). -/
inductive ContentBlock where
  | text (t : String)
  | image_url (url : String)
  | plotly_html (html : String)
deriving DecidableEq

/-- The result dict read from the sandbox response file:
`{stdout, stderr, images, plotly_htmls}`. -/
structure SandboxResult where
  stdout : String
  stderr : String
  images : List String
  plotly_htmls : List String
deriving DecidableEq

/-- MIME sniffing in `run_code` (`agents/tools.py` line 127): PNG iff
the base64 payload starts with `iVBOR`, else JPEG. -/
def imgMime (b64 : String) : String :=
  if b64.startsWith "iVBOR" then "image/png" else "image/jpeg"

/-- The text part of a `run_code` result (`agents/tools.py` lines
116–121): the non-empty ones of stdout/stderr, labelled, joined by a
blank line; `"(no output)"` when both are empty. -/
def runCodeText (r : SandboxResult) : String :=
  let parts : List String :=
    (if r.stdout = "" then [] else ["stdout:\n" ++ r.stdout]) ++
    (if r.stderr = "" then [] else ["stderr:\n" ++ r.stderr])
  if parts = [] then "(no output)" else String.intercalate "\n\n" parts

/-- The content-block list a `run_code` result is turned into
(`agents/tools.py` lines 124–136). -/
def runCodeBlocks (r : SandboxResult) : List ContentBlock :=
  ContentBlock.text (runCodeText r) ::
  (r.images.map fun b =>
    ContentBlock.image_url ("data:" ++ imgMime b ++ ";base64," ++ b)) ++
  r.plotly_htmls.map ContentBlock.plotly_html

/-- What happens when `run_code` consults the sandbox layer
(`current_user_id.get()`, `get_sandbox`, `sandbox.run_code`): either a
result dict, or some exception raised along the way. -/
inductive SandboxOutcome where
  | ok (r : SandboxResult)
  | raised (e : PyError)
deriving DecidableEq

/-- `run_code` from `agents/tools.py` (lines 103–136).  The `try`
block catches `Exception` only, substituting the error result dict
`{"stdout": "", "stderr": str(e), "images": []}` (no `plotly_htmls`
key, so `.get` yields `[]`); an error not deriving from `Exception`
propagates. -/
def run_code (outcome : SandboxOutcome) : Except PyError (List ContentBlock) :=
  match outcome with
  | .ok r => .ok (runCodeBlocks r)
  | .raised e =>
    if e.derivesException then
      .ok (runCodeBlocks ⟨"", e.msg, [], []⟩)
    else
      .error e

/-- Spec-side text block for C6, written from the claim's words: the
labelled non-empty sections, blank-line separated, or `"(no output)"`
when both are empty. -/
def specRunCodeText (r : SandboxResult) : String :=
  if r.stdout = "" then
    if r.stderr = "" then "(no output)" else "stderr:\n" ++ r.stderr
  else
    if r.stderr = "" then "stdout:\n" ++ r.stdout
    else "stdout:\n" ++ r.stdout ++ "\n\n" ++ "stderr:\n" ++ r.stderr

/-- Spec-side content-block list for C6, written from the claim's
words: one text block, then one image block per image (PNG iff the
base64 starts with `iVBOR`, else JPEG), then one interactive-plot block
per HTML fragment, in that order. -/
def specRunCodeBlocks (r : SandboxResult) : List ContentBlock :=
  ContentBlock.text (specRunCodeText r) ::
  (r.images.map fun b =>
    ContentBlock.image_url
      ("data:" ++ (if b.startsWith "iVBOR" then "image/png" else "image/jpeg")
        ++ ";base64," ++ b)) ++
  r.plotly_htmls.map ContentBlock.plotly_html

/-! ## The agent loop (`agents/agent.py`) -/

/-- The `function` field of a tool call: name and JSON-encoded
arguments string. -/
structure ToolCallFunction where
  name : String
  arguments : String
deriving DecidableEq

/-- A tool-call request inside an assistant message. -/
structure ToolCall where
  id : String
  function : ToolCallFunction
deriving DecidableEq

/-- The assistant message object the model gateway returns:
`content`, `tool_calls` (the Python falsy check `not message.tool_calls`
treats `None` and `[]` alike, so both are modelled by `[]`), and the
opaque extra fields (thought signatures etc.) the object carries. -/
structure GatewayMessage where
  content : Option String
  tool_calls : List ToolCall
  extra : List (String × String)
deriving DecidableEq

/-- One response of the model gateway.  `usage` is
`response.usage` (`none` when falsy) and, inside it,
`usage.total_tokens` (`none` when `None`; `run_agent` then adds 0 via
`or 0`). -/
structure GatewayResponse where
  message : GatewayMessage
  usage : Option (Option Nat)
deriving DecidableEq

/-- An entry of the mutable `messages` list.  `assistantObj` is the
gateway's message object appended verbatim (agent.py line 62);
`assistantDict` is the rebuilt dict
`{"role": "assistant", "content": message.content}` (line 56). -/
inductive Message where
  | system (content : String)
  | user (content : String)
  | assistantObj (gm : GatewayMessage)
  | assistantDict (content : Option String)
  | tool (tool_call_id : String) (content : List ContentBlock)
deriving DecidableEq

/-- The `role` each message entry reports through `.get("role")`. -/
def Message.role : Message → String
  | .system _ => "system"
  | .user _ => "user"
  | .assistantObj _ => "assistant"
  | .assistantDict _ => "assistant"
  | .tool _ _ => "tool"

/-- System-prompt insertion (agent.py lines 31–32):
`if not messages or messages[0].get("role") != "system":
messages.insert(0, {"role": "system", "content": SYSTEM_PROMPT})`.
`sp` stands for `SYSTEM_PROMPT`. -/
def ensureSystemPrompt (sp : String) (messages : List Message) : List Message :=
  match messages with
  | [] => Message.system sp :: messages
  | m :: _ =>
    if m.role = "system" then messages else Message.system sp :: messages

/-- An event yielded by the `run_agent` generator: either a usage
update `{"type": "usage", "total": t}` or a message. -/
inductive Event where
  | usage (total : Nat)
  | message (m : Message)
deriving DecidableEq

/-- Usage accounting of one loop iteration (agent.py lines 47–49):
when `response.usage` is truthy, add `total_tokens or 0` to the running
total and yield one usage event carrying the new total. -/
def usageStep (tot : Nat) (u : Option (Option Nat)) : Nat × List Event :=
  match u with
  | none => (tot, [])
  | some v => (tot + v.getD 0, [Event.usage (tot + v.getD 0)])

/-- The tool layer the loop dispatches into: `json.loads` for the
arguments (which can raise), and the `TOOL_FUNCTIONS` table, whose
entries can themselves raise.  (The tests patch this table, so the loop
is parametric in it.) -/
structure ToolEnv where
  parseArgs : String → Except PyError String
  impls : String → Option (String → Except PyError (List ContentBlock))

/-- One tool-call dispatch (agent.py lines 67–75):
`args = json.loads(tool_call.function.arguments)` (may raise),
`TOOL_FUNCTIONS[name]` (raises `KeyError` when absent),
then the call itself (may raise).  There is no `try` around any of
these, so every error propagates to the caller of the generator. -/
def execToolCall (env : ToolEnv) (tc : ToolCall) : Except PyError Message :=
  match env.parseArgs tc.function.arguments with
  | .error e => .error e
  | .ok args =>
    match env.impls tc.function.name with
    | none => .error ⟨"KeyError", tc.function.name, true⟩
    | some f =>
      match f args with
      | .error e => .error e
      | .ok res => .ok (Message.tool tc.id res)

/-- The `for tool_call in message.tool_calls` loop: the tool messages
produced (and yielded) before the first raising call, and the raised
error, if any. -/
def execToolCalls (env : ToolEnv) : List ToolCall → List Message × Option PyError
  | [] => ([], none)
  | tc :: rest =>
    match execToolCall env tc with
    | .error e => ([], some e)
    | .ok m =>
      (m :: (execToolCalls env rest).1, (execToolCalls env rest).2)

/-- Outcome of running the loop against a finite gateway script:
`done` — a response without tool calls was reached and the generator
returned; `aborted` — an uncaught exception escaped the generator;
`outOfScript` — the script was exhausted with the loop still asking for
model responses.  Each constructor carries the events yielded and the
messages appended before the end. -/
inductive RunOutcome where
  | done (events : List Event) (appended : List Message)
  | aborted (err : PyError) (events : List Event) (appended : List Message)
  | outOfScript (events : List Event) (appended : List Message)
deriving DecidableEq

/-- Prefix already-produced events and appended messages onto an
outcome. -/
def RunOutcome.withPre (evs : List Event) (ms : List Message) :
    RunOutcome → RunOutcome
  | .done e a => .done (evs ++ e) (ms ++ a)
  | .aborted err e a => .aborted err (evs ++ e) (ms ++ a)
  | .outOfScript e a => .outOfScript (evs ++ e) (ms ++ a)

/-- The events of an outcome. -/
def RunOutcome.events : RunOutcome → List Event
  | .done e _ => e
  | .aborted _ e _ => e
  | .outOfScript e _ => e

/-- The messages appended during the run. -/
def RunOutcome.appended : RunOutcome → List Message
  | .done _ a => a
  | .aborted _ _ a => a
  | .outOfScript _ a => a

/-- Whether the run ended in an uncaught exception. -/
def RunOutcome.isAborted : RunOutcome → Bool
  | .aborted .. => true
  | _ => false

/-- The `while True` body of `run_agent` (agents/agent.py lines
37–77), driven by the script of gateway responses.  Per iteration:
usage event, then either the final assistant dict (yield and return) or
the verbatim assistant object followed by tool dispatch; a raising
dispatch aborts the run (there is no `except` in the loop). -/
def runLoop (env : ToolEnv) : List GatewayResponse → Nat → RunOutcome
  | [], _ => .outOfScript [] []
  | r :: rest, tot =>
    if r.message.tool_calls.isEmpty then
      .done ((usageStep tot r.usage).2 ++
          [Event.message (Message.assistantDict r.message.content)])
        [Message.assistantDict r.message.content]
    else
      match (execToolCalls env r.message.tool_calls).2 with
      | some e =>
        .aborted e
          ((usageStep tot r.usage).2 ++
            [Event.message (Message.assistantObj r.message)] ++
            ((execToolCalls env r.message.tool_calls).1.map Event.message))
          (Message.assistantObj r.message ::
            (execToolCalls env r.message.tool_calls).1)
      | none =>
        (runLoop env rest (usageStep tot r.usage).1).withPre
          ((usageStep tot r.usage).2 ++
            [Event.message (Message.assistantObj r.message)] ++
            ((execToolCalls env r.message.tool_calls).1.map Event.message))
          (Message.assistantObj r.message ::
            (execToolCalls env r.message.tool_calls).1)

/-- `run_agent(messages)` for one turn: insert the system prompt if
needed, then run the loop with the cumulative token counter starting at
0 (agent.py line 35).  Returns the messages list as mutated (prefix
plus appended suffix) together with the run outcome. -/
def run_agent (env : ToolEnv) (sp : String) (script : List GatewayResponse)
    (messages : List Message) : List Message × RunOutcome :=
  let start := ensureSystemPrompt sp messages
  let out := runLoop env script 0
  (start ++ out.appended, out)

/-- Does the messages list already begin with a system message?
(Claim-side reading of the guard in agent.py line 31.) -/
def startsWithSystem : List Message → Bool
  | Message.system _ :: _ => true
  | _ => false

/-- Is an event a `tool` message? -/
def Event.isToolMsg : Event → Bool
  | .message (.tool _ _) => true
  | _ => false

/-- The successive `total` fields of the usage events within an event
sequence. -/
def usageTotals (evs : List Event) : List Nat :=
  evs.filterMap fun ev =>
    match ev with
    | .usage t => some t
    | .message _ => none

/-- The opaque extra fields (thought signatures etc.) still present on
a messages-list entry. -/
def Message.opaqueFields : Message → List (String × String)
  | .assistantObj gm => gm.extra
  | _ => []

/-- A tool layer that is never reached (for runs whose responses carry
no tool calls). -/
def toolEnvTrivial : ToolEnv :=
  ⟨fun s => .ok s, fun _ => none⟩

/-- The tool layer with a `run_code` whose invocation raises. -/
def toolEnvRaising : ToolEnv :=
  ⟨fun s => .ok s,
   fun n =>
     if n = "run_code" then
       some fun _ => .error ⟨"Exception", "boom", true⟩
     else none⟩

/-- A tool layer whose `run_code` succeeds on the argument string
`"ok"` and raises on anything else. -/
def toolEnvMixed : ToolEnv :=
  ⟨fun s => .ok s,
   fun n =>
     if n = "run_code" then
       some fun a =>
         if a = "ok" then .ok [ContentBlock.text "ran"]
         else .error ⟨"TypeError", "bad args", true⟩
     else none⟩

/-! ## The sandbox driver (`agents/driver_program.py`) -/

/-- The persistent name-binding environment (`globals`), an
association list from names to (opaque, here numeric) values; `exec`
binds by shadowing. -/
abbrev Env := List (String × Nat)

/-- One top-level effect of a snippet as run by `exec(code, globals)`:
bind a name (assignment / import / def / class), write to stdout or
stderr, or raise. -/
inductive Stmt where
  | bind (name : String) (value : Nat)
  | outS (s : String)
  | outE (s : String)
  | raiseErr (e : PyError)
deriving DecidableEq

/-- A snippet is the sequence of top-level effects its execution
performs. -/
abbrev Snippet := List Stmt

/-- `exec(code, globals)` under the redirected string buffers: threads
the environment and the two buffers, stopping at the first raise.
Bindings made before the raise stay in the environment. -/
def runSnippet : Snippet → Env → String → String →
    Env × String × String × Option PyError
  | [], env, o, er => (env, o, er, none)
  | .bind n v :: rest, env, o, er => runSnippet rest ((n, v) :: env) o er
  | .outS s :: rest, env, o, er => runSnippet rest env (o ++ s) er
  | .outE s :: rest, env, o, er => runSnippet rest env o (er ++ s)
  | .raiseErr e :: _, env, o, er => (env, o, er, some e)

/-- A response file `{command_id}.txt` as the driver writes it (the
image/plot capture fields are not involved in the checked claims). -/
structure Response where
  stdout : String
  stderr : String
deriving DecidableEq

/-- Result of the driver's `for line in tail_f(...)` loop over a batch
of commands: the response files written, the final environment, the
environment at the start of each executed snippet, and the error that
crashed the loop, if any. -/
structure DriverResult where
  responses : List Response
  finalEnv : Env
  startEnvs : List Env
  crashed : Option PyError
deriving DecidableEq

/-- The driver loop (driver_program.py lines 47–163) restricted to the
code-execution path: per command, run the snippet in the persistent
`globals` with fresh string buffers; `except Exception as e` appends
`f"{type(e).__name__}: {e}"` plus the newline `print` adds to the
stderr buffer; then the response file is written.  An error not
deriving from `Exception` (e.g. `SystemExit`) escapes the `except`
clause, so no response file is written and the loop terminates. -/
def driverRun : List Snippet → Env → DriverResult
  | [], env => ⟨[], env, [], none⟩
  | code :: rest, env =>
    match runSnippet code env "" "" with
    | (env', o, er, none) =>
      let res := driverRun rest env'
      ⟨⟨o, er⟩ :: res.responses, res.finalEnv, env :: res.startEnvs, res.crashed⟩
    | (env', o, er, some e) =>
      if e.derivesException then
        let res := driverRun rest env'
        ⟨⟨o, er ++ e.kind ++ ": " ++ e.msg ++ "\n"⟩ :: res.responses,
          res.finalEnv, env :: res.startEnvs, res.crashed⟩
      else ⟨[], env', [env], some e⟩

/-- A snippet effect that can only raise errors deriving from
`Exception`. -/
def Stmt.exceptionOnly : Stmt → Bool
  | .raiseErr e => e.derivesException
  | _ => true

/-! ## Retrying remote-file opens (`agents/coding_sandbox.py`) -/

/-- What one attempt to `self.sandbox.open(file_path, mode)` (plus the
body of the `with`) does: succeed with a value, raise an error in the
retryable set (`FilesystemExecutionError`, plus `FileNotFoundError`
for the response-file read), or raise anything else. -/
inductive Attempt (α : Type) where
  | success (v : α)
  | retryable (e : PyError)
  | fatal (e : PyError)

/-- The `while True` retry loop of `_open_sandbox_file`
(coding_sandbox.py lines 132–143), with `remaining = max_attempts -
attempt` failures still allowed and `i` attempts already performed; `f
i` is the outcome of the `(i+1)`-st open attempt.  On a retryable
error, `attempt += 1; if attempt >= max_attempts: raise e`, else sleep
and retry; on any other error, propagate.  Returns the value of the
succeeding attempt and the number of attempts performed. -/
def openLoop (f : Nat → Attempt α) : Nat → Nat → Except PyError (α × Nat)
  | 0, i =>
    match f i with
    | .success v => .ok (v, i + 1)
    | .fatal e => .error e
    | .retryable e => .error e
  | 1, i =>
    match f i with
    | .success v => .ok (v, i + 1)
    | .fatal e => .error e
    | .retryable e => .error e
  | r + 2, i =>
    match f i with
    | .success v => .ok (v, i + 1)
    | .fatal e => .error e
    | .retryable _ => openLoop f (r + 1) (i + 1)

/-- `ModalSandbox._open_sandbox_file(file_path, mode, max_attempts)`:
the retry loop started with `attempt = 0`. -/
def open_sandbox_file (f : Nat → Attempt α) (max_attempts : Nat) :
    Except PyError (α × Nat) :=
  openLoop f max_attempts 0

/-! ## Helper lemmas -/

theorem runCodeText_eq_spec (r : SandboxResult) :
    runCodeText r = specRunCodeText r := by
  unfold runCodeText specRunCodeText
  by_cases h1 : r.stdout = "" <;> by_cases h2 : r.stderr = "" <;>
    simp [h1, h2, String.intercalate, String.intercalate.go,
      String.append_assoc]
  have h4 : ("\n\n" : String) ++ "stderr:\n" = "\n\nstderr:\n" := rfl
  rw [← String.append_assoc "\n\n" "stderr:\n" r.stderr, h4]

theorem runLoop_nil (env : ToolEnv) (tot : Nat) :
    runLoop env [] tot = .outOfScript [] [] := rfl

theorem runLoop_cons_final (env : ToolEnv) (r : GatewayResponse)
    (rest : List GatewayResponse) (tot : Nat)
    (h : r.message.tool_calls.isEmpty = true) :
    runLoop env (r :: rest) tot =
      .done ((usageStep tot r.usage).2 ++
          [Event.message (Message.assistantDict r.message.content)])
        [Message.assistantDict r.message.content] := by
  simp [runLoop, h]

theorem runLoop_cons_abort (env : ToolEnv) (r : GatewayResponse)
    (rest : List GatewayResponse) (tot : Nat) (e : PyError)
    (h : r.message.tool_calls.isEmpty = false)
    (he : (execToolCalls env r.message.tool_calls).2 = some e) :
    runLoop env (r :: rest) tot =
      .aborted e
        ((usageStep tot r.usage).2 ++
          [Event.message (Message.assistantObj r.message)] ++
          ((execToolCalls env r.message.tool_calls).1.map Event.message))
        (Message.assistantObj r.message ::
          (execToolCalls env r.message.tool_calls).1) := by
  simp [runLoop, h, he]

theorem runLoop_cons_step (env : ToolEnv) (r : GatewayResponse)
    (rest : List GatewayResponse) (tot : Nat)
    (h : r.message.tool_calls.isEmpty = false)
    (he : (execToolCalls env r.message.tool_calls).2 = none) :
    runLoop env (r :: rest) tot =
      (runLoop env rest (usageStep tot r.usage).1).withPre
        ((usageStep tot r.usage).2 ++
          [Event.message (Message.assistantObj r.message)] ++
          ((execToolCalls env r.message.tool_calls).1.map Event.message))
        (Message.assistantObj r.message ::
          (execToolCalls env r.message.tool_calls).1) := by
  simp [runLoop, h, he]

theorem withPre_appended (evs : List Event) (ms : List Message)
    (o : RunOutcome) : (o.withPre evs ms).appended = ms ++ o.appended := by
  cases o <;> rfl

theorem withPre_events (evs : List Event) (ms : List Message)
    (o : RunOutcome) : (o.withPre evs ms).events = evs ++ o.events := by
  cases o <;> rfl

theorem execToolCall_role {env : ToolEnv} {tc : ToolCall} {m : Message}
    (h : execToolCall env tc = .ok m) : m.role = "tool" := by
  unfold execToolCall at h
  split at h
  · exact absurd h (by simp)
  · split at h
    · exact absurd h (by simp)
    · split at h
      · exact absurd h (by simp)
      · injection h with h'
        subst h'
        rfl

theorem all_mono {α : Type} {l : List α} {p q : α → Bool}
    (h : ∀ x, p x = true → q x = true) (hp : l.all p = true) :
    l.all q = true := by
  rw [List.all_eq_true] at hp ⊢
  exact fun x hx => h x (hp x hx)

theorem execToolCalls_fst_roles (env : ToolEnv) (tcs : List ToolCall) :
    ((execToolCalls env tcs).1.all fun m => m.role == "tool") = true := by
  induction tcs with
  | nil => rfl
  | cons tc rest ih =>
    simp only [execToolCalls]
    cases hc : execToolCall env tc with
    | error e => rfl
    | ok m =>
      simp only [List.all_cons, ih, Bool.and_true]
      simp [execToolCall_role hc]

theorem runLoop_appended_roles (env : ToolEnv) (script : List GatewayResponse)
    (tot : Nat) :
    ((runLoop env script tot).appended.all
      fun m => m.role == "assistant" || m.role == "tool") = true := by
  induction script generalizing tot with
  | nil => rfl
  | cons r rest ih =>
    have hroles := execToolCalls_fst_roles env r.message.tool_calls
    have htms : ((execToolCalls env r.message.tool_calls).1.all
        fun m => m.role == "assistant" || m.role == "tool") = true := by
      refine all_mono ?_ hroles
      intro m hm
      simp only [beq_iff_eq] at hm
      simp [hm]
    by_cases hT : r.message.tool_calls.isEmpty
    · rw [runLoop_cons_final env r rest tot hT]
      simp [RunOutcome.appended, Message.role]
    · rw [Bool.not_eq_true] at hT
      cases he : (execToolCalls env r.message.tool_calls).2 with
      | some e =>
        rw [runLoop_cons_abort env r rest tot e hT he]
        simp only [RunOutcome.appended, List.all_cons, htms,
          Bool.and_true]
        rfl
      | none =>
        rw [runLoop_cons_step env r rest tot hT he, withPre_appended]
        simp only [List.all_cons, List.all_append, htms, ih,
          Bool.and_true]
        rfl

theorem runLoop_appended_not_system (env : ToolEnv)
    (script : List GatewayResponse) (tot : Nat) :
    ((runLoop env script tot).appended.all
      fun m => !(m.role == "system")) = true := by
  refine all_mono ?_ (runLoop_appended_roles env script tot)
  intro m hm
  rcases Bool.or_eq_true_iff.1 hm with h | h <;>
    simp only [beq_iff_eq] at h <;> simp [h]

/-! ## Claim theorems -/

/-- C6: for every sandbox result, `run_code` returns one text block
combining the non-empty stdout/stderr sections (labelled, blank-line
separated, `"(no output)"` when both are empty), then one image block
per image whose MIME is `image/png` iff the base64 starts with
`iVBOR` and `image/jpeg` otherwise, then one interactive-plot block
per HTML fragment, in that order. -/
theorem c6_run_code_content_blocks :
    (∀ r : SandboxResult, run_code (.ok r) = .ok (specRunCodeBlocks r)) ∧
    (∀ b : String, (imgMime b == "image/png") = b.startsWith "iVBOR" ∧
      (imgMime b == "image/jpeg") = !(b.startsWith "iVBOR")) := by
  constructor
  · intro r
    simp only [run_code, runCodeBlocks, specRunCodeBlocks, imgMime,
      runCodeText_eq_spec]
  · intro b
    unfold imgMime
    by_cases h : b.startsWith "iVBOR" <;> simp [h]

/-- C8: the system-prompt step of a turn prepends the canonical system
prompt exactly when the messages list does not already begin with a
system message, is idempotent, and the rest of the turn appends no
system message (so an existing leading system message is left
unchanged and never duplicated). -/
theorem c8_system_prompt_idempotent
    (env : ToolEnv) (sp : String) (script : List GatewayResponse)
    (messages : List Message) :
    ensureSystemPrompt sp messages =
      (if startsWithSystem messages then messages
       else Message.system sp :: messages) ∧
    ensureSystemPrompt sp (ensureSystemPrompt sp messages) =
      ensureSystemPrompt sp messages ∧
    (run_agent env sp script messages).1 =
      ensureSystemPrompt sp messages ++
        (run_agent env sp script messages).2.appended ∧
    ((run_agent env sp script messages).2.appended.all
      fun m => !(m.role == "system")) = true := by
  refine ⟨?_, ?_, rfl, ?_⟩
  · cases messages with
    | nil => rfl
    | cons m rest =>
      cases m <;> simp [ensureSystemPrompt, startsWithSystem, Message.role]
  · cases messages with
    | nil => rfl
    | cons m rest =>
      cases m <;> simp [ensureSystemPrompt, Message.role]
  · show ((runLoop env script 0).appended.all
      fun m => !(m.role == "system")) = true
    exact runLoop_appended_not_system env script 0

/-- C10 — counterexample.  For an exception whose text is empty
(`str(e) == ""`, as for `Exception()`), the caught-error path of
`run_code` produces the `"(no output)"` text block: the returned text
block carries no stderr section at all, against the claim that it
always carries the exception's text. -/
theorem c10_counterexample :
    run_code (.raised ⟨"Exception", "", true⟩) =
      .ok [ContentBlock.text "(no output)"] ∧
    ContentBlock.text "(no output)" ≠
      ContentBlock.text ("stderr:\n" ++ "") := by
  exact ⟨rfl, by decide⟩

/-- C10 (amended): if acquiring the sandbox or submitting the code
raises an exception deriving from `Exception`, `run_code` does not
propagate it but returns the one-element content-block list whose text
block is the labelled stderr section carrying the exception's text
when that text is non-empty, and `"(no output)"` when it is empty; in
either case the list is non-empty with a text block first. -/
theorem c10_run_code_total_on_sandbox_errors (e : PyError)
    (h : e.derivesException = true) :
    run_code (.raised e) =
      .ok [ContentBlock.text
        (if e.msg = "" then "(no output)" else "stderr:\n" ++ e.msg)] := by
  simp only [run_code, h, if_true]
  unfold runCodeBlocks runCodeText
  by_cases hm : e.msg = "" <;>
    simp [hm, String.intercalate, String.intercalate.go]

/-- C10 — witness: the amended theorem at the concrete exception
`Exception("boom")`. -/
theorem c10_witness :
    run_code (.raised ⟨"Exception", "boom", true⟩) =
      .ok [ContentBlock.text "stderr:\nboom"] := by
  have h := c10_run_code_total_on_sandbox_errors ⟨"Exception", "boom", true⟩ rfl
  rw [if_neg (by decide)] at h
  exact h

theorem runSnippet_exceptionOnly :
    ∀ (code : Snippet) (env : Env) (o er : String)
      (env' : Env) (o' er' : String) (e : PyError),
      (code.all Stmt.exceptionOnly) = true →
      runSnippet code env o er = (env', o', er', some e) →
      e.derivesException = true := by
  intro code
  induction code with
  | nil =>
    intro env o er env' o' er' e _ h
    simp [runSnippet] at h
  | cons st rest ih =>
    intro env o er env' o' er' e hall h
    rw [List.all_cons] at hall
    obtain ⟨h1, h2⟩ := Bool.and_eq_true_iff.mp hall
    cases st with
    | bind nm v =>
      simp only [runSnippet] at h
      exact ih _ _ _ _ _ _ _ h2 h
    | outS s =>
      simp only [runSnippet] at h
      exact ih _ _ _ _ _ _ _ h2 h
    | outE s =>
      simp only [runSnippet] at h
      exact ih _ _ _ _ _ _ _ h2 h
    | raiseErr e' =>
      simp only [runSnippet, Prod.mk.injEq] at h
      obtain ⟨-, -, -, he⟩ := h
      injection he with he'
      subst he'
      exact h1

/-- C2 — counterexample.  A snippet raising `SystemExit` (a
`BaseException` that does not derive from `Exception`, as `sys.exit()`
raises) escapes the driver's `except Exception` clause: no response
file is written for it and the driver loop terminates, against the
claim that this holds for every possible exception. -/
theorem c2_counterexample :
    (driverRun [[Stmt.raiseErr ⟨"SystemExit", "", false⟩]] []).responses
        = [] ∧
    (driverRun [[Stmt.raiseErr ⟨"SystemExit", "", false⟩]] []).crashed
        = some ⟨"SystemExit", "", false⟩ :=
  ⟨rfl, rfl⟩

/-- C2 (amended): for every snippet whose raised errors derive from
`Exception`, the error is caught, the stderr buffer receives
`"KindName: message"` (plus the newline `print` appends), a response
file is still written, and the driver loop survives: over any batch of
such snippets it never crashes and writes one response per snippet.
Errors not deriving from `Exception` (such as `SystemExit`) escape the
handler and terminate the loop. -/
theorem c2_driver_catches_exceptions :
    (∀ (snips : List Snippet) (env : Env),
      (snips.all fun c => c.all Stmt.exceptionOnly) = true →
      (driverRun snips env).crashed = none ∧
      (driverRun snips env).responses.length = snips.length) ∧
    (∀ (code : Snippet) (env : Env) (env' : Env) (o er : String)
       (e : PyError) (rest : List Snippet),
      runSnippet code env "" "" = (env', o, er, some e) →
      e.derivesException = true →
      (driverRun (code :: rest) env).responses.head? =
        some ⟨o, er ++ e.kind ++ ": " ++ e.msg ++ "\n"⟩) := by
  constructor
  · intro snips
    induction snips with
    | nil => intro env _; exact ⟨rfl, rfl⟩
    | cons code rest ih =>
      intro env hall
      rw [List.all_cons] at hall
      obtain ⟨h1, h2⟩ := Bool.and_eq_true_iff.mp hall
      rcases hr : runSnippet code env "" "" with ⟨env', o, er, err?⟩
      cases err? with
      | none =>
        simp only [driverRun, hr]
        exact ⟨(ih env' h2).1, by simp [(ih env' h2).2]⟩
      | some e =>
        have hde := runSnippet_exceptionOnly code env "" "" env' o er e h1 hr
        simp only [driverRun, hr, hde, if_true]
        exact ⟨(ih env' h2).1, by simp [(ih env' h2).2]⟩
  · intro code env env' o er e rest hr hde
    simp only [driverRun, hr, hde, if_true]
    rfl

/-- C2 — witness: both parts of the amended theorem at concrete
inputs: a two-snippet batch whose second snippet raises
`ZeroDivisionError` is fully processed with no crash and two
responses, and the raising snippet's response carries
`"ZeroDivisionError: division by zero\n"` on stderr. -/
theorem c2_witness :
    ((driverRun [[Stmt.bind "x" 1],
        [Stmt.raiseErr ⟨"ZeroDivisionError", "division by zero", true⟩]]
        []).crashed = none ∧
      (driverRun [[Stmt.bind "x" 1],
        [Stmt.raiseErr ⟨"ZeroDivisionError", "division by zero", true⟩]]
        []).responses.length = 2) ∧
    (driverRun
        ([Stmt.raiseErr ⟨"ZeroDivisionError", "division by zero", true⟩] ::
          []) []).responses.head? =
      some ⟨"", "ZeroDivisionError: division by zero\n"⟩ := by
  constructor
  · exact c2_driver_catches_exceptions.1 _ _ (by decide)
  · exact c2_driver_catches_exceptions.2 _ [] [] "" ""
      ⟨"ZeroDivisionError", "division by zero", true⟩ [] rfl rfl

theorem runSnippet_lookup_mono :
    ∀ (code : Snippet) (env : Env) (o er : String) (n : String),
      (List.lookup n env).isSome = true →
      (List.lookup n (runSnippet code env o er).1).isSome = true := by
  intro code
  induction code with
  | nil => intro env o er n h; exact h
  | cons st rest ih =>
    intro env o er n h
    cases st with
    | bind nm v =>
      simp only [runSnippet]
      refine ih _ _ _ _ ?_
      by_cases hb : (n == nm) = true <;> simp [List.lookup, hb, h]
    | outS s => simp only [runSnippet]; exact ih _ _ _ _ h
    | outE s => simp only [runSnippet]; exact ih _ _ _ _ h
    | raiseErr e => simp only [runSnippet]; exact h

theorem driverRun_lookup_mono :
    ∀ (snips : List Snippet) (env : Env) (n : String),
      (List.lookup n env).isSome = true →
      (List.lookup n (driverRun snips env).finalEnv).isSome = true ∧
      ((driverRun snips env).startEnvs.all
        fun en => (List.lookup n en).isSome) = true := by
  intro snips
  induction snips with
  | nil => intro env n h; exact ⟨h, rfl⟩
  | cons code rest ih =>
    intro env n h
    have h' := runSnippet_lookup_mono code env "" "" n h
    rcases hr : runSnippet code env "" "" with ⟨env', o, er, err?⟩
    rw [hr] at h'
    cases err? with
    | none =>
      simp only [driverRun, hr]
      exact ⟨(ih env' n h').1, by simp [h, (ih env' n h').2]⟩
    | some e =>
      by_cases hde : e.derivesException = true
      · simp only [driverRun, hr, hde, if_true]
        exact ⟨(ih env' n h').1, by simp [h, (ih env' n h').2]⟩
      · rw [Bool.not_eq_true] at hde
        simp only [driverRun, hr, hde]
        exact ⟨h', by simp [h]⟩

theorem driverRun_append :
    ∀ (pre post : List Snippet) (env : Env),
      (driverRun pre env).crashed = none →
      driverRun (pre ++ post) env =
        ⟨(driverRun pre env).responses ++
            (driverRun post (driverRun pre env).finalEnv).responses,
          (driverRun post (driverRun pre env).finalEnv).finalEnv,
          (driverRun pre env).startEnvs ++
            (driverRun post (driverRun pre env).finalEnv).startEnvs,
          (driverRun post (driverRun pre env).finalEnv).crashed⟩ := by
  intro pre
  induction pre with
  | nil => intro post env _; simp [driverRun]
  | cons code rest ih =>
    intro post env h
    rcases hr : runSnippet code env "" "" with ⟨env', o, er, err?⟩
    cases err? with
    | none =>
      have hcr : (driverRun rest env').crashed = none := by
        simp only [driverRun, hr] at h
        exact h
      simp only [List.cons_append, driverRun, hr, List.append_eq,
        ih post env' hcr]
    | some e =>
      by_cases hde : e.derivesException = true
      · have hcr : (driverRun rest env').crashed = none := by
          simp only [driverRun, hr, hde, if_true] at h
          exact h
        simp only [List.cons_append, driverRun, hr, hde, if_true,
          List.append_eq, ih post env' hcr]
      · rw [Bool.not_eq_true] at hde
        simp only [driverRun, hr, hde] at h
        simp at h

/-- C9: the driver keeps one persistent environment: any name visible
in the environment at some point (in particular one bound by an
earlier snippet) is still visible in the environment each later
snippet starts in and in the final environment — including when
snippets raise — and running further snippets continues from the final
environment of the earlier ones (the environment is never reset within
the process). -/
theorem c9_persistent_environment :
    (∀ (snips : List Snippet) (env : Env) (n : String),
      (List.lookup n env).isSome = true →
      (List.lookup n (driverRun snips env).finalEnv).isSome = true ∧
      ((driverRun snips env).startEnvs.all
        fun en => (List.lookup n en).isSome) = true) ∧
    (∀ (pre post : List Snippet) (env : Env),
      (driverRun pre env).crashed = none →
      driverRun (pre ++ post) env =
        ⟨(driverRun pre env).responses ++
            (driverRun post (driverRun pre env).finalEnv).responses,
          (driverRun post (driverRun pre env).finalEnv).finalEnv,
          (driverRun pre env).startEnvs ++
            (driverRun post (driverRun pre env).finalEnv).startEnvs,
          (driverRun post (driverRun pre env).finalEnv).crashed⟩) :=
  ⟨driverRun_lookup_mono, driverRun_append⟩

/-- C9 — witness: with `x` bound initially, a batch containing a
raising snippet keeps `x` visible at each snippet and at the end, and
a later batch continues from the earlier batch's final environment. -/
theorem c9_witness :
    ((List.lookup "x"
        (driverRun [[Stmt.bind "y" 2],
          [Stmt.raiseErr ⟨"ZeroDivisionError", "division by zero", true⟩],
          [Stmt.outS "hi"]] [("x", 1)]).finalEnv).isSome = true ∧
      ((driverRun [[Stmt.bind "y" 2],
          [Stmt.raiseErr ⟨"ZeroDivisionError", "division by zero", true⟩],
          [Stmt.outS "hi"]] [("x", 1)]).startEnvs.all
        fun en => (List.lookup "x" en).isSome) = true) ∧
    driverRun ([[Stmt.bind "x" 1]] ++ [[Stmt.bind "y" 2]]) [] =
      ⟨(driverRun [[Stmt.bind "x" 1]] []).responses ++
          (driverRun [[Stmt.bind "y" 2]]
            (driverRun [[Stmt.bind "x" 1]] []).finalEnv).responses,
        (driverRun [[Stmt.bind "y" 2]]
          (driverRun [[Stmt.bind "x" 1]] []).finalEnv).finalEnv,
        (driverRun [[Stmt.bind "x" 1]] []).startEnvs ++
          (driverRun [[Stmt.bind "y" 2]]
            (driverRun [[Stmt.bind "x" 1]] []).finalEnv).startEnvs,
        (driverRun [[Stmt.bind "y" 2]]
          (driverRun [[Stmt.bind "x" 1]] []).finalEnv).crashed⟩ := by
  constructor
  · exact c9_persistent_environment.1 _ _ "x" rfl
  · exact c9_persistent_environment.2 [[Stmt.bind "x" 1]]
      [[Stmt.bind "y" 2]] [] rfl

theorem openLoop_success {α : Type} :
    ∀ (k r i : Nat) (f : Nat → Attempt α) (es : Nat → PyError) (v : α),
      (∀ j, j < k → f (i + j) = .retryable (es j)) →
      f (i + k) = .success v → k + 1 ≤ r →
      openLoop f r i = .ok (v, i + k + 1) := by
  intro k
  induction k with
  | zero =>
    intro r i f es v _ h2 _
    have h0 : f i = .success v := by simpa using h2
    rcases r with _ | _ | r' <;> simp [openLoop, h0]
  | succ k ih =>
    intro r i f es v h1 h2 hr
    have h0 : f i = .retryable (es 0) := by
      simpa using h1 0 (Nat.succ_pos k)
    obtain ⟨r', rfl⟩ : ∃ r', r = r' + 2 := ⟨r - 2, by omega⟩
    have step : openLoop f (r' + 2) i = openLoop f (r' + 1) (i + 1) := by
      simp [openLoop, h0]
    rw [step]
    have h1' : ∀ j, j < k → f (i + 1 + j) = .retryable (es (j + 1)) := by
      intro j hj
      have := h1 (j + 1) (by omega)
      rwa [show i + (j + 1) = i + 1 + j by omega] at this
    have h2' : f (i + 1 + k) = .success v := by
      rwa [show i + 1 + k = i + (k + 1) by omega]
    have := ih (r' + 1) (i + 1) f (fun j => es (j + 1)) v h1' h2' (by omega)
    rwa [show i + 1 + k + 1 = i + (k + 1) + 1 by omega] at this

theorem openLoop_exhaust {α : Type} :
    ∀ (n i : Nat) (f : Nat → Attempt α) (es : Nat → PyError),
      (∀ j, j < n + 1 → f (i + j) = .retryable (es j)) →
      openLoop f (n + 1) i = .error (es n) := by
  intro n
  induction n with
  | zero =>
    intro i f es h
    have h0 : f i = .retryable (es 0) := by simpa using h 0 Nat.one_pos
    simp [openLoop, h0]
  | succ n ih =>
    intro i f es h
    have h0 : f i = .retryable (es 0) := by
      simpa using h 0 (Nat.succ_pos (n + 1))
    have step : openLoop f (n + 2) i = openLoop f (n + 1) (i + 1) := by
      simp [openLoop, h0]
    rw [step]
    exact ih (i + 1) f (fun j => es (j + 1)) fun j hj => by
      have := h (j + 1) (by omega)
      rwa [show i + (j + 1) = i + 1 + j by omega] at this

theorem openLoop_fatal {α : Type} :
    ∀ (k r i : Nat) (f : Nat → Attempt α) (es : Nat → PyError)
      (e : PyError),
      (∀ j, j < k → f (i + j) = .retryable (es j)) →
      f (i + k) = .fatal e → k + 1 ≤ r →
      openLoop f r i = .error e := by
  intro k
  induction k with
  | zero =>
    intro r i f es e _ h2 _
    have h0 : f i = .fatal e := by simpa using h2
    rcases r with _ | _ | r' <;> simp [openLoop, h0]
  | succ k ih =>
    intro r i f es e h1 h2 hr
    have h0 : f i = .retryable (es 0) := by
      simpa using h1 0 (Nat.succ_pos k)
    obtain ⟨r', rfl⟩ : ∃ r', r = r' + 2 := ⟨r - 2, by omega⟩
    have step : openLoop f (r' + 2) i = openLoop f (r' + 1) (i + 1) := by
      simp [openLoop, h0]
    rw [step]
    refine ih (r' + 1) (i + 1) f (fun j => es (j + 1)) e ?_ ?_ (by omega)
    · intro j hj
      have := h1 (j + 1) (by omega)
      rwa [show i + (j + 1) = i + 1 + j by omega] at this
    · rwa [show i + 1 + k = i + (k + 1) by omega]

/-- C7: when the first `k` open attempts raise retryable errors
(`FilesystemExecutionError`, plus `FileNotFoundError` for reads) and
the `(k+1)`-st succeeds with `k` below `max_attempts`, the controller
performs exactly `k+1` attempts and returns the value of the final
one; when all `max_attempts` attempts raise retryable errors it raises
the last such error; an error outside the retryable set propagates
immediately after the attempts preceding it. -/
theorem c7_open_retry {α : Type} :
    (∀ (f : Nat → Attempt α) (m k : Nat) (es : Nat → PyError) (v : α),
      (∀ j, j < k → f j = .retryable (es j)) → f k = .success v →
      k < m → open_sandbox_file f m = .ok (v, k + 1)) ∧
    (∀ (f : Nat → Attempt α) (n : Nat) (es : Nat → PyError),
      (∀ j, j < n + 1 → f j = .retryable (es j)) →
      open_sandbox_file f (n + 1) = .error (es n)) ∧
    (∀ (f : Nat → Attempt α) (m k : Nat) (es : Nat → PyError)
       (e : PyError),
      (∀ j, j < k → f j = .retryable (es j)) → f k = .fatal e →
      k < m → open_sandbox_file f m = .error e) := by
  refine ⟨?_, ?_, ?_⟩
  · intro f m k es v h1 h2 hk
    have := openLoop_success k m 0 f es v
      (fun j hj => by rw [Nat.zero_add]; exact h1 j hj)
      (by rwa [Nat.zero_add]) (by omega)
    rwa [Nat.zero_add] at this
  · intro f n es h
    exact openLoop_exhaust n 0 f es
      fun j hj => by rw [Nat.zero_add]; exact h j hj
  · intro f m k es e h1 h2 hk
    exact openLoop_fatal k m 0 f es e
      (fun j hj => by rw [Nat.zero_add]; exact h1 j hj)
      (by rwa [Nat.zero_add]) (by omega)

/-- C7 — witness: with `max_attempts = 5` and two retryable failures
before a success, the open returns the final value after exactly 3
attempts; with `max_attempts = 3` and only retryable failures it
raises; a fatal error after one retryable failure propagates. -/
theorem c7_witness :
    open_sandbox_file
        (fun i => if i < 2
          then Attempt.retryable ⟨"FilesystemExecutionError", "fs", true⟩
          else (Attempt.success 42 : Attempt Nat)) 5 = .ok (42, 3) ∧
    open_sandbox_file
        (fun _ => (Attempt.retryable ⟨"FileNotFoundError", "nf", true⟩ :
          Attempt Nat)) 3 = .error ⟨"FileNotFoundError", "nf", true⟩ ∧
    open_sandbox_file
        (fun i => if i = 0
          then Attempt.retryable ⟨"FilesystemExecutionError", "fs", true⟩
          else (Attempt.fatal ⟨"PermissionError", "denied", true⟩ :
            Attempt Nat)) 3 =
      .error ⟨"PermissionError", "denied", true⟩ := by
  refine ⟨?_, ?_, ?_⟩
  · exact c7_open_retry.1 _ 5 2
      (fun _ => ⟨"FilesystemExecutionError", "fs", true⟩) 42
      (by intro j hj; interval_cases j <;> rfl) rfl (by omega)
  · exact c7_open_retry.2.1 _ 2
      (fun _ => ⟨"FileNotFoundError", "nf", true⟩) fun j hj => rfl
  · exact c7_open_retry.2.2 _ 3 1
      (fun _ => ⟨"FilesystemExecutionError", "fs", true⟩)
      ⟨"PermissionError", "denied", true⟩
      (by intro j hj; interval_cases j; rfl) rfl (by omega)

theorem execToolCalls_first_error :
    ∀ (env : ToolEnv) (pre : List ToolCall) (bad : ToolCall)
      (post : List ToolCall) (e : PyError),
      (∀ tc ∈ pre, ∃ m, execToolCall env tc = .ok m) →
      execToolCall env bad = .error e →
      ∃ tms, execToolCalls env (pre ++ bad :: post) = (tms, some e) ∧
        tms.length = pre.length ∧
        (tms.all fun m => m.role == "tool") = true := by
  intro env pre
  induction pre with
  | nil =>
    intro bad post e _ hbad
    refine ⟨[], ?_, rfl, rfl⟩
    simp [execToolCalls, hbad]
  | cons tc pre' ih =>
    intro bad post e hpre hbad
    obtain ⟨m, hm⟩ := hpre tc (List.mem_cons_self tc pre')
    obtain ⟨tms', h1, h2, h3⟩ :=
      ih bad post e (fun tc' htc' => hpre tc' (List.mem_cons_of_mem _ htc')) hbad
    refine ⟨m :: tms', ?_, by simp [h2], ?_⟩
    · simp only [List.cons_append, execToolCalls, List.append_eq, hm, h1]
    · simp [List.all_cons, h3, execToolCall_role hm]

/-- C1 — counterexample.  The loop body has no `try`/`except` around
tool dispatch: with the real tool table shape (a `run_code` whose
invocation raises) and a script offering a follow-up model response,
the run aborts with the exception — no tool message carrying the
exception text is yielded and the loop does not continue to the next
model call, against the claim. -/
theorem c1_counterexample :
    (runLoop toolEnvRaising
        [⟨⟨none, [⟨"call_1", ⟨"run_code", "args"⟩⟩], []⟩, some (some 10)⟩,
         ⟨⟨some "done", [], []⟩, some (some 5)⟩] 0).isAborted = true ∧
    ((runLoop toolEnvRaising
        [⟨⟨none, [⟨"call_1", ⟨"run_code", "args"⟩⟩], []⟩, some (some 10)⟩,
         ⟨⟨some "done", [], []⟩, some (some 5)⟩] 0).events.all
      fun ev => !ev.isToolMsg) = true := by
  exact ⟨rfl, rfl⟩

/-- C1 (amended): when some tool call of an assistant message raises —
during argument parsing, tool lookup, or tool execution — the loop
yields tool messages only for the calls before the failing one
(`tms.length = pre.length`), yields no tool message for the failing
call, and the turn aborts with that exception instead of continuing to
the next model call.  (The `run_code` implementation itself catches
sandbox-layer exceptions, per C10, so a dispatched `run_code` rarely
raises; but any uncaught exception at dispatch aborts the turn.) -/
theorem c1_tool_exception_aborts_turn :
    ∀ (env : ToolEnv) (r : GatewayResponse) (rest : List GatewayResponse)
      (tot : Nat) (pre post : List ToolCall) (bad : ToolCall)
      (e : PyError),
      r.message.tool_calls = pre ++ bad :: post →
      (∀ tc ∈ pre, ∃ m, execToolCall env tc = .ok m) →
      execToolCall env bad = .error e →
      ∃ tms, runLoop env (r :: rest) tot =
          .aborted e ((usageStep tot r.usage).2 ++
            [Event.message (Message.assistantObj r.message)] ++
            tms.map Event.message)
            (Message.assistantObj r.message :: tms) ∧
        tms.length = pre.length ∧
        (tms.all fun m => m.role == "tool") = true := by
  intro env r rest tot pre post bad e htc hpre hbad
  obtain ⟨tms, h1, h2, h3⟩ :=
    execToolCalls_first_error env pre bad post e hpre hbad
  have hT : r.message.tool_calls.isEmpty = false := by
    rw [htc]; cases pre <;> rfl
  have he2 : (execToolCalls env r.message.tool_calls).2 = some e := by
    rw [htc, h1]
  have he1 : (execToolCalls env r.message.tool_calls).1 = tms := by
    rw [htc, h1]
  refine ⟨tms, ?_, h2, h3⟩
  rw [runLoop_cons_abort env r rest tot e hT he2, he1]

/-- C1 — witness: the amended theorem at a concrete response with one
succeeding call followed by one raising call. -/
theorem c1_witness :
    ∃ tms, runLoop toolEnvMixed
        [⟨⟨none, [⟨"c1", ⟨"run_code", "ok"⟩⟩, ⟨"c2", ⟨"run_code", "zz"⟩⟩],
            []⟩, some (some 10)⟩] 0 =
        .aborted ⟨"TypeError", "bad args", true⟩
          ((usageStep 0 (some (some 10))).2 ++
            [Event.message (Message.assistantObj
              ⟨none, [⟨"c1", ⟨"run_code", "ok"⟩⟩,
                ⟨"c2", ⟨"run_code", "zz"⟩⟩], []⟩)] ++
            tms.map Event.message)
          (Message.assistantObj
              ⟨none, [⟨"c1", ⟨"run_code", "ok"⟩⟩,
                ⟨"c2", ⟨"run_code", "zz"⟩⟩], []⟩ :: tms) ∧
      tms.length = 1 ∧ (tms.all fun m => m.role == "tool") = true := by
  have h := c1_tool_exception_aborts_turn toolEnvMixed
    ⟨⟨none, [⟨"c1", ⟨"run_code", "ok"⟩⟩, ⟨"c2", ⟨"run_code", "zz"⟩⟩],
      []⟩, some (some 10)⟩ [] 0
    [⟨"c1", ⟨"run_code", "ok"⟩⟩] [] ⟨"c2", ⟨"run_code", "zz"⟩⟩
    ⟨"TypeError", "bad args", true⟩ rfl ?_ rfl
  · exact h
  · intro tc htc
    rw [List.mem_singleton] at htc
    subst htc
    exact ⟨Message.tool "c1" [ContentBlock.text "ran"], rfl⟩

/-- C3 — counterexample.  For a final gateway message (no tool calls)
carrying an opaque thought-signature field, the loop appends the
rebuilt dict `{"role": "assistant", "content": message.content}`: the
appended message no longer carries the opaque field, against the claim
that all fields are preserved in this case too. -/
theorem c3_counterexample :
    (runLoop toolEnvTrivial
        [⟨⟨some "hi", [], [("thought_signature", "sig")]⟩, none⟩]
        0).appended = [Message.assistantDict (some "hi")] ∧
    (Message.assistantDict (some "hi")).opaqueFields ≠
      [("thought_signature", "sig")] := by
  exact ⟨rfl, by decide⟩

/-- C3 (amended): an assistant message appended while it has tool
calls is the gateway's message object verbatim — every appended
`assistantObj` equals some script response's message, all fields
(opaque ones included) intact; the final assistant message (no tool
calls) is appended as a rebuilt dict keeping only the role and the
content, and every appended `assistantDict` arises that way from a
script response without tool calls. -/
theorem c3_assistant_field_preservation :
    ∀ (env : ToolEnv) (script : List GatewayResponse) (tot : Nat),
      (∀ gm, Message.assistantObj gm ∈ (runLoop env script tot).appended →
        (∃ r ∈ script, r.message = gm) ∧ gm.tool_calls ≠ []) ∧
      (∀ c, Message.assistantDict c ∈ (runLoop env script tot).appended →
        ∃ r ∈ script, r.message.content = c ∧ r.message.tool_calls = []) := by
  intro env script
  induction script with
  | nil =>
    intro tot
    constructor
    · intro gm hm; simp [runLoop, RunOutcome.appended] at hm
    · intro c hm; simp [runLoop, RunOutcome.appended] at hm
  | cons r rest ih =>
    intro tot
    have htool : ∀ m, m ∈ (execToolCalls env r.message.tool_calls).1 →
        m.role = "tool" := by
      intro m hm
      have := execToolCalls_fst_roles env r.message.tool_calls
      rw [List.all_eq_true] at this
      have h := this m hm
      simpa using h
    by_cases hT : r.message.tool_calls.isEmpty
    · rw [runLoop_cons_final env r rest tot hT]
      constructor
      · intro gm hm
        simp [RunOutcome.appended] at hm
      · intro c hm
        simp only [RunOutcome.appended, List.mem_singleton] at hm
        injection hm with hc
        exact ⟨r, List.mem_cons_self r rest,
          hc.symm, List.isEmpty_iff.mp hT⟩
    · rw [Bool.not_eq_true] at hT
      have hne : r.message.tool_calls ≠ [] := by
        intro hnil
        rw [hnil] at hT
        exact absurd hT (by simp)
      cases he : (execToolCalls env r.message.tool_calls).2 with
      | some e =>
        rw [runLoop_cons_abort env r rest tot e hT he]
        constructor
        · intro gm hm
          simp only [RunOutcome.appended, List.mem_cons] at hm
          rcases hm with hm | hm
          · injection hm with hgm
            exact ⟨⟨r, List.mem_cons_self r rest, hgm.symm⟩,
              hgm ▸ hne⟩
          · exact absurd (htool _ hm) (by simp [Message.role])
        · intro c hm
          simp only [RunOutcome.appended, List.mem_cons] at hm
          rcases hm with hm | hm
          · exact absurd hm (by intro h; cases h)
          · exact absurd (htool _ hm) (by simp [Message.role])
      | none =>
        rw [runLoop_cons_step env r rest tot hT he, withPre_appended]
        constructor
        · intro gm hm
          rw [List.mem_append] at hm
          rcases hm with hm | hm
          · simp only [List.mem_cons] at hm
            rcases hm with hm | hm
            · injection hm with hgm
              exact ⟨⟨r, List.mem_cons_self r rest, hgm.symm⟩,
                hgm ▸ hne⟩
            · exact absurd (htool _ hm) (by simp [Message.role])
          · obtain ⟨⟨r', hr', hr'e⟩, hne'⟩ := (ih _).1 gm hm
            exact ⟨⟨r', List.mem_cons_of_mem _ hr', hr'e⟩, hne'⟩
        · intro c hm
          rw [List.mem_append] at hm
          rcases hm with hm | hm
          · simp only [List.mem_cons] at hm
            rcases hm with hm | hm
            · exact absurd hm (by intro h; cases h)
            · exact absurd (htool _ hm) (by simp [Message.role])
          · obtain ⟨r', hr', hr'e⟩ := (ih _).2 c hm
            exact ⟨r', List.mem_cons_of_mem _ hr', hr'e⟩

/-- C3 — witness: the amended theorem at a concrete run, showing the
verbatim-appended assistant object (opaque field intact) traced back
to its script response. -/
theorem c3_witness :
    (∃ r ∈ ([⟨⟨none, [⟨"c1", ⟨"run_code", "ok"⟩⟩],
          [("thought_signature", "sig")]⟩, some (some 7)⟩,
        ⟨⟨some "done", [], []⟩, none⟩] : List GatewayResponse),
      r.message = ⟨none, [⟨"c1", ⟨"run_code", "ok"⟩⟩],
        [("thought_signature", "sig")]⟩) ∧
    (⟨none, [⟨"c1", ⟨"run_code", "ok"⟩⟩],
      [("thought_signature", "sig")]⟩ : GatewayMessage).tool_calls ≠ [] := by
  refine (c3_assistant_field_preservation toolEnvMixed
    [⟨⟨none, [⟨"c1", ⟨"run_code", "ok"⟩⟩],
        [("thought_signature", "sig")]⟩, some (some 7)⟩,
      ⟨⟨some "done", [], []⟩, none⟩] 0).1
    ⟨none, [⟨"c1", ⟨"run_code", "ok"⟩⟩], [("thought_signature", "sig")]⟩
    (by decide)

theorem usageTotals_append (a b : List Event) :
    usageTotals (a ++ b) = usageTotals a ++ usageTotals b := by
  simp [usageTotals, List.filterMap_append]

theorem usageTotals_map_message (ms : List Message) :
    usageTotals (ms.map Event.message) = [] := by
  induction ms with
  | nil => rfl
  | cons m rest ih =>
    simp only [usageTotals, List.map_cons, List.filterMap_cons] at ih ⊢
    exact ih

theorem usageTotals_usageStep (tot : Nat) (u : Option (Option Nat)) :
    List.Chain' (· ≤ ·) (usageTotals (usageStep tot u).2) ∧
    ∀ t ∈ usageTotals (usageStep tot u).2, tot ≤ t := by
  cases u with
  | none =>
    exact ⟨by simp [usageStep, usageTotals],
      by simp [usageStep, usageTotals]⟩
  | some v =>
    refine ⟨by simp [usageStep, usageTotals], ?_⟩
    intro t ht
    simp [usageStep, usageTotals, List.filterMap_cons] at ht
    omega

theorem runLoop_usage_chain :
    ∀ (env : ToolEnv) (script : List GatewayResponse) (tot : Nat),
      List.Chain' (· ≤ ·) (usageTotals (runLoop env script tot).events) ∧
      ∀ t ∈ usageTotals (runLoop env script tot).events, tot ≤ t := by
  intro env script
  induction script with
  | nil =>
    intro tot
    refine ⟨?_, ?_⟩ <;> simp [runLoop, RunOutcome.events, usageTotals]
  | cons r rest ih =>
    intro tot
    by_cases hT : r.message.tool_calls.isEmpty
    · rw [runLoop_cons_final env r rest tot hT]
      simp only [RunOutcome.events]
      rw [usageTotals_append]
      have hm : usageTotals
          [Event.message (Message.assistantDict r.message.content)] = [] := rfl
      rw [hm, List.append_nil]
      exact usageTotals_usageStep tot r.usage
    · rw [Bool.not_eq_true] at hT
      cases he : (execToolCalls env r.message.tool_calls).2 with
      | some e =>
        rw [runLoop_cons_abort env r rest tot e hT he]
        simp only [RunOutcome.events]
        rw [usageTotals_append, usageTotals_append, usageTotals_map_message]
        have hm : usageTotals
            [Event.message (Message.assistantObj r.message)] = [] := rfl
        rw [hm, List.append_nil, List.append_nil]
        exact usageTotals_usageStep tot r.usage
      | none =>
        rw [runLoop_cons_step env r rest tot hT he, withPre_events]
        rw [usageTotals_append, usageTotals_append, usageTotals_append,
          usageTotals_map_message]
        have hm : usageTotals
            [Event.message (Message.assistantObj r.message)] = [] := rfl
        rw [hm, List.append_nil, List.append_nil]
        cases hu : r.usage with
        | none =>
          have h0 : usageTotals (usageStep tot none).2 = [] := rfl
          rw [h0, List.nil_append]
          have h1 : (usageStep tot none).1 = tot := rfl
          rw [h1]
          exact ih tot
        | some v =>
          have h0 : usageTotals (usageStep tot (some v)).2 =
              [tot + v.getD 0] := rfl
          have h1 : (usageStep tot (some v)).1 = tot + v.getD 0 := rfl
          rw [h0, h1, List.singleton_append]
          constructor
          · refine List.chain'_cons'.mpr ⟨?_, (ih (tot + v.getD 0)).1⟩
            intro y hy
            exact (ih (tot + v.getD 0)).2 y (List.mem_of_mem_head? hy)
          · intro t ht
            rcases List.mem_cons.mp ht with h | h
            · omega
            · have := (ih (tot + v.getD 0)).2 t h
              omega

/-- C4 — counterexample.  The cumulative counter is re-initialised to
zero by each `run_agent` call: with a first turn whose model call
reports 100 tokens and a second turn (same conversation, the messages
list carried over) reporting 50, the session's consecutive usage
events carry totals 100 then 50, which is not non-decreasing. -/
theorem c4_counterexample :
    usageTotals
        ((run_agent toolEnvTrivial "sys"
            [⟨⟨some "a", [], []⟩, some (some 100)⟩] []).2.events ++
          (run_agent toolEnvTrivial "sys"
            [⟨⟨some "b", [], []⟩, some (some 50)⟩]
            (run_agent toolEnvTrivial "sys"
              [⟨⟨some "a", [], []⟩, some (some 100)⟩] []).1).2.events) =
      [100, 50] ∧
    ¬ List.Chain' (· ≤ ·) [100, 50] := by
  constructor
  · rfl
  · intro h
    rw [List.chain'_cons] at h
    exact absurd h.1 (by omega)

/-- C4 (amended): every usage event carries a natural — hence
non-negative — cumulative total, and within a single turn (one
`run_agent` call) the totals of consecutive usage events are
non-decreasing; the counter restarts at zero on each turn, so the
ordering does not extend across turns. -/
theorem c4_usage_monotone_within_turn (env : ToolEnv) (sp : String)
    (script : List GatewayResponse) (messages : List Message) :
    List.Chain' (· ≤ ·)
      (usageTotals (run_agent env sp script messages).2.events) :=
  (runLoop_usage_chain env script 0).1

theorem runLoop_done_last :
    ∀ (env : ToolEnv) (script : List GatewayResponse) (tot : Nat)
      (evs : List Event) (ap : List Message),
      runLoop env script tot = .done evs ap →
      ∃ c, evs.getLast? = some (Event.message (Message.assistantDict c)) := by
  intro env script
  induction script with
  | nil =>
    intro tot evs ap h
    simp [runLoop] at h
  | cons r rest ih =>
    intro tot evs ap h
    by_cases hT : r.message.tool_calls.isEmpty
    · rw [runLoop_cons_final env r rest tot hT] at h
      injection h with h1 h2
      subst h1
      exact ⟨r.message.content, List.getLast?_concat _⟩
    · rw [Bool.not_eq_true] at hT
      cases he : (execToolCalls env r.message.tool_calls).2 with
      | some e =>
        rw [runLoop_cons_abort env r rest tot e hT he] at h
        simp at h
      | none =>
        rw [runLoop_cons_step env r rest tot hT he] at h
        rcases hrec : runLoop env rest (usageStep tot r.usage).1 with
          ⟨evs₀, ap₀⟩ | ⟨e₀, evs₀, ap₀⟩ | ⟨evs₀, ap₀⟩ <;>
          rw [hrec] at h <;> simp only [RunOutcome.withPre] at h
        · injection h with h1 h2
          subst h1
          obtain ⟨c, hc⟩ := ih _ _ _ hrec
          have hne : evs₀ ≠ [] := by
            intro hnil
            rw [hnil] at hc
            simp at hc
          exact ⟨c, by rw [List.getLast?_append_of_ne_nil _ hne]; exact hc⟩
        · simp at h
        · simp at h

/-- C5: whenever a turn of the agent loop terminates (the generator
returns rather than raising), its final emitted event is the plain
assistant message built for a gateway response without tool calls
(`assistantDict`, which carries no tool calls by construction), and no
event follows it within the turn. -/
theorem c5_final_event_plain_assistant (env : ToolEnv) (sp : String)
    (script : List GatewayResponse) (messages : List Message)
    (evs : List Event) (ap : List Message)
    (h : (run_agent env sp script messages).2 = .done evs ap) :
    ∃ c, evs.getLast? = some (Event.message (Message.assistantDict c)) ∧
      (Message.assistantDict c).role = "assistant" := by
  obtain ⟨c, hc⟩ := runLoop_done_last env script 0 evs ap h
  exact ⟨c, hc, rfl⟩

/-- C5 — witness: a one-response script without tool calls terminates
with the plain assistant message as its last event. -/
theorem c5_witness :
    ∃ c, [Event.usage 10,
        Event.message (Message.assistantDict (some "hi"))].getLast? =
        some (Event.message (Message.assistantDict c)) ∧
      (Message.assistantDict c).role = "assistant" :=
  c5_final_event_plain_assistant toolEnvTrivial "sys"
    [⟨⟨some "hi", [], []⟩, some (some 10)⟩] []
    [Event.usage 10, Event.message (Message.assistantDict (some "hi"))]
    [Message.assistantDict (some "hi")] rfl

end FastAgent
